import Mathlib

/-!
Verification of the subprocess CLI transport of `claude-code-sdk-go`
(`internal/transport/subprocess.go` and its collaborators).

The transport drives a child process over newline-delimited JSON.  We give a
shallow embedding of its pure core: JSON records are association lists over an
inductive value type (mirroring Go's `map[string]any` after `json.Unmarshal`),
the stdout reader is a fold over scanned lines threading the JSON accumulator
and the pending-control-response table, and the stderr collector, control
channel, stdin request path and connection state machine are explicit state
passing functions.  The standard-library collaborators (`encoding/json`
parsing, `strings.TrimSpace`, `strings.Split`) are modelled respectively by an
abstract parse parameter and by faithful character-list implementations.
-/

/-! ### JSON values (Go `any` after `encoding/json` unmarshalling) -/

/-- Values of Go's `map[string]any` JSON records: an untyped JSON tree.
Numbers are modelled as integers (the claims never inspect numeric fields). -/
inductive JVal where
  | null
  | bool (b : Bool)
  | num (n : Int)
  | str (s : String)
  | arr (elems : List JVal)
  | obj (fields : List (String × JVal))

/-- Go's `map[string]any`: an association list of string keys to JSON values.
Lookup takes the first matching binding; `mapInsert` overwrites. -/
abbrev JObj := List (String × JVal)

/-- Map indexing `m[k]`, yielding `none` when the key is absent (Go's
zero-value/`ok = false` case for the comma-ok form). -/
def jlookup (o : JObj) (key : String) : Option JVal :=
  match o with
  | [] => none
  | (k, v) :: rest => if k = key then some v else jlookup rest key

/-- Map assignment `m[k] = v`: the new binding shadows any previous one. -/
def mapInsert (o : JObj) (key : String) (v : JVal) : JObj :=
  (key, v) :: o.filter (fun p => p.1 ≠ key)

/-- Map lookup in the pending-control-response table
(`t.pendingControlResponses[requestID]`). -/
def tableLookup (table : List (String × JObj)) (key : String) : Option JObj :=
  match table with
  | [] => none
  | (k, v) :: rest => if k = key then some v else tableLookup rest key

/-- Table assignment `t.pendingControlResponses[requestID] = response`. -/
def tableInsert (table : List (String × JObj)) (key : String) (v : JObj) :
    List (String × JObj) :=
  (key, v) :: table.filter (fun p => p.1 ≠ key)

/-- Go `delete(t.pendingControlResponses, requestID)`. -/
def tableErase (table : List (String × JObj)) (key : String) :
    List (String × JObj) :=
  table.filter (fun p => p.1 ≠ key)

/-! ### String collaborators

Go's `len`, `strings.TrimSpace` and `strings.Split(line, "\n")`, modelled at
the character-list level. -/

/-- Go `len(s)`: the UTF-8 byte length of a string. -/
def goLen (s : String) : Nat :=
  s.data.foldl (fun n c => n + c.utf8Size) 0

/-- Go `strings.TrimSpace`: drop whitespace from both ends. -/
def trimSpace (s : String) : String :=
  String.mk (((s.data.dropWhile Char.isWhitespace).reverse.dropWhile
    Char.isWhitespace).reverse)

/-- Split a character list at every occurrence of the separator character;
`splitOnChar c l` always returns at least one (possibly empty) piece. -/
def splitOnChar (sep : Char) : List Char → List (List Char)
  | [] => [[]]
  | x :: xs =>
    match splitOnChar sep xs with
    | [] => if x = sep then [[], []] else [[x]]
    | h :: t => if x = sep then [] :: h :: t else (x :: h) :: t

/-- Go `strings.Split(line, "\n")` for the single-character separator used by
`readOutput`. -/
def splitLines (line : String) : List String :=
  (splitOnChar '\n' line.data).map String.mk

/-! ### Constants of `internal/transport/subprocess.go` -/

/-- The 1 MiB JSON accumulator bound (`maxBufferSize = 1024 * 1024`). -/
def maxBufferSize : Nat := 1024 * 1024

/-- The 10 MiB stderr bound (`maxStderrSize = 10 * 1024 * 1024`). -/
def maxStderrSize : Nat := 10 * 1024 * 1024

/-! ### Events on the output channel

`MessageData` wraps either a domain record (`Data`) or an error (`Err`); the
constructors record which error value the transport built. -/

/-- Data or error values sent with `safeSend` on the output channel. -/
inductive OutEvent where
  /-- A domain record `MessageData{Data: data}` forwarded to the caller. -/
  | record (data : JObj)
  /-- A `CLIJSONDecodeError` built by `NewCLIJSONDecodeError(line, …)`. -/
  | decodeError (line : String)
  /-- A `ProcessError` built by `NewProcessError(…, exitCode, stderr)`. -/
  | processError (exitCode : Int) (stderr : String)

/-- Message text of the accumulator-overflow decode error
(`fmt.Sprintf("JSON message exceeded maximum buffer size of %d bytes", …)`). -/
def overflowMessage : String :=
  "JSON message exceeded maximum buffer size of " ++ Nat.repr maxBufferSize
    ++ " bytes"

/-! ### StdoutReader (`readOutput`)

The reader scans stdout line by line, splits each line on embedded newlines,
accumulates fragments in `jsonBuffer` until the buffer parses, resets the
buffer on overflow, and routes parsed records.  The `encoding/json`
collaborator (`json.Unmarshal` into `map[string]any`) is an abstract
parameter `parse`; it returns `some` exactly on inputs it accepts. -/

/-- State threaded through `readOutput`: the JSON accumulator and the
pending-control-response table it writes into. -/
structure ReaderState where
  jsonBuffer : String
  pendingControlResponses : List (String × JObj)

/-- Go interface equality `v == "control_response"` for a looked-up map value:
true exactly when the dynamic value is that string. -/
def isStringValue (v : Option JVal) (s : String) : Bool :=
  match v with
  | some (.str t) => t = s
  | _ => false

/-- Routing of one successfully parsed record (the body of `readOutput` after
`json.Unmarshal` succeeds): the buffer is reset; a record whose `type` field
is the string `"control_response"` is consumed — its `response` object is
stored under its string `request_id` when both are present — and every other
record is forwarded on the output channel. -/
def routeRecord (st : ReaderState) (data : JObj) : ReaderState × List OutEvent :=
  let st := { st with jsonBuffer := "" }
  if isStringValue (jlookup data "type") "control_response" then
    match jlookup data "response" with
    | some (.obj response) =>
      match jlookup response "request_id" with
      | some (.str requestID) =>
        ({ st with pendingControlResponses :=
            tableInsert st.pendingControlResponses requestID response }, [])
      | _ => (st, [])
    | _ => (st, [])
  else
    (st, [.record data])

/-- Processing of one fragment of a scanned line (the inner loop body of
`readOutput`): trim it, skip it when empty, append it to the accumulator,
reset and emit the overflow decode error when the accumulator now exceeds
`maxBufferSize`, and otherwise attempt a parse, routing the record on
success. -/
def processFragment (parse : String → Option JObj) (st : ReaderState)
    (fragment : String) : ReaderState × List OutEvent :=
  let jsonLine := trimSpace fragment
  if jsonLine = "" then (st, [])
  else
    let jsonBuffer := st.jsonBuffer ++ jsonLine
    if goLen jsonBuffer > maxBufferSize then
      ({ st with jsonBuffer := "" }, [.decodeError overflowMessage])
    else
      match parse jsonBuffer with
      | some data => routeRecord { st with jsonBuffer := jsonBuffer } data
      | none => ({ st with jsonBuffer := jsonBuffer }, [])

/-- Processing of a list of fragments in order, concatenating the emitted
events. -/
def processFragments (parse : String → Option JObj) (st : ReaderState) :
    List String → ReaderState × List OutEvent
  | [] => (st, [])
  | frag :: rest =>
    let (st1, evs1) := processFragment parse st frag
    let (st2, evs2) := processFragments parse st1 rest
    (st2, evs1 ++ evs2)

/-- Processing of one scanned physical line (the outer loop body of
`readOutput`): empty lines are skipped, other lines are split on embedded
newlines and their fragments processed in order. -/
def processLine (parse : String → Option JObj) (st : ReaderState)
    (line : String) : ReaderState × List OutEvent :=
  if line = "" then (st, [])
  else processFragments parse st (splitLines line)

/-- Run of the stdout reader over a sequence of scanned lines. -/
def runReader (parse : String → Option JObj) (st : ReaderState) :
    List String → ReaderState × List OutEvent
  | [] => (st, [])
  | line :: rest =>
    let (st1, evs1) := processLine parse st line
    let (st2, evs2) := runReader parse st1 rest
    (st2, evs1 ++ evs2)

/-! ### StderrCollector (`readStderr` completion and `processStderr`)

The exit code read from `t.cmd.ProcessState` is `none` while the process has
not been waited for (`ProcessState == nil`), in which case the local
`exitCode` variable keeps its zero value. -/

/-- Model of `processStderr`: join the captured lines, read the exit code
(zero when `ProcessState` is nil), and emit one `ProcessError` only when the
exit code is non-zero.  An empty line list returns without emitting. -/
def processStderr (processState : Option Int) (lines : List String) :
    List OutEvent :=
  if lines.length = 0 then []
  else
    let stderrOutput := String.intercalate "\n" lines
    let exitCode := processState.getD 0
    if exitCode ≠ 0 then [.processError exitCode stderrOutput] else []

/-- Model of the `case <-done:` completion arm of `readStderr`: when the
stderr stream is drained, `processStderr` runs only if at least one line was
captured. -/
def stderrDone (processState : Option Int) (lines : List String) :
    List OutEvent :=
  if lines.length > 0 then processStderr processState lines else []

/-! ### ControlChannel (`sendControlRequest`) -/

/-- Modulus of Go's `uint64` (the type of `t.requestCounter`). -/
def UINT64_MOD : Nat := 18446744073709551616

/-- Go `atomic.AddUint64(&t.requestCounter, 1)`: the incremented counter
value, wrapping at `2^64`. -/
def nextRequestCounter (requestCounter : Nat) : Nat :=
  (requestCounter + 1) % UINT64_MOD

/-- Value of `t.requestCounter` after `n` control requests on a transport
created with the zero counter. -/
def requestCounterAfter : Nat → Nat
  | 0 => 0
  | n + 1 => nextRequestCounter (requestCounterAfter n)

/-- Request identifier `fmt.Sprintf("req_%d_%d", counter, unixNano)`. -/
def requestIdString (counter : Nat) (unixNano : Int) : String :=
  "req_" ++ Nat.repr counter ++ "_" ++ Int.repr unixNano

/-- Identifier assigned to the `k`-th control request (counting from zero) of
a transport instance, `unixNano` being the `time.Now().UnixNano()` sample
observed by that call. -/
def requestIdAt (k : Nat) (unixNano : Int) : String :=
  requestIdString (requestCounterAfter (k + 1)) unixNano

/-- The wrapped control request
`{type: control_request, request_id, request}`. -/
def controlRequestRecord (requestID : String) (request : JObj) : JObj :=
  [("type", .str "control_request"), ("request_id", .str requestID),
   ("request", .obj request)]

/-- Handling of a matched control response (the tail of the polling loop in
`sendControlRequest`): a response whose `subtype` is the string `"error"` and
whose `error` field is a string fails with a `CLIConnectionError` carrying
that message; any other response is returned as is. -/
def handleControlResponse (response : JObj) : Except String JObj :=
  if isStringValue (jlookup response "subtype") "error" then
    match jlookup response "error" with
    | some (.str errMsg) => .error ("Control request failed: " ++ errMsg)
    | _ => .ok response
  else .ok response

/-- One tick of the 100 ms polling loop of `sendControlRequest`: look the
request id up in the pending table; when absent keep waiting, when present
delete the entry and resolve the call with `handleControlResponse`. -/
def pollControlResponse (pending : List (String × JObj)) (requestID : String) :
    List (String × JObj) × Option (Except String JObj) :=
  match tableLookup pending requestID with
  | none => (pending, none)
  | some response => (tableErase pending requestID, some (handleControlResponse response))

/-! ### StdinWriter request path (`SendRequest`)

Entries of `t.stdinChan` are modelled as the structured records handed to
`json.Marshal`; serialisation and the trailing newline are the external
encoding step. -/

/-- Wrapping applied to each message of a `SendRequest` call: a record that
has no `type` key is replaced by a user-turn wrapper embedding the original
record as `message.content` and carrying the call's session id; a record that
has a `type` key is passed through unchanged. -/
def wrapMessage (sessionID : String) (msg : JObj) : JObj :=
  if (jlookup msg "type").isNone then
    [("type", .str "user"),
     ("message", .obj [("role", .str "user"), ("content", .obj msg)]),
     ("parent_tool_use_id", .null),
     ("session_id", .str sessionID)]
  else msg

/-- Session id taken from a `SendRequest` call's metadata:
`metadata["session_id"].(string)` when that succeeds, `"default"`
otherwise. -/
def sessionIdOfMetadata (metadata : JObj) : String :=
  match jlookup metadata "session_id" with
  | some (.str sid) => sid
  | _ => "default"

/-- Model of `SendRequest`: outside streaming mode or while not connected the
call fails with a `CLIConnectionError`; otherwise each message is wrapped
(when it lacks a `type` key) and enqueued on the stdin channel in submission
order. -/
def sendRequest (isStreaming connected : Bool) (metadata : JObj)
    (messages : List JObj) : Except String (List JObj) :=
  if !isStreaming then .error "SendRequest only works in streaming mode"
  else if !connected then .error "Not connected"
  else
    let sessionID := sessionIdOfMetadata metadata
    .ok (messages.map (wrapMessage sessionID))

/-! ### stringPromptAdapter (`NewStringPromptStream`) -/

/-- Error value of a `MessageStream.Next` call; the adapter only ever returns
`io.EOF`. -/
inductive StreamError where
  | eof

/-- State of `stringPromptAdapter`: the prompt and the `sent` flag. -/
structure StringPromptAdapter where
  prompt : String
  sent : Bool

/-- The record yielded for a string prompt:
`{"type":"user","message":{"role":"user","content":prompt}}`. -/
def stringPromptRecord (prompt : String) : JObj :=
  [("type", .str "user"),
   ("message", .obj [("role", .str "user"), ("content", .str prompt)])]

/-- Model of `stringPromptAdapter.Next`: the first call yields the user
record and marks the adapter sent; every later call returns `nil, io.EOF`. -/
def StringPromptAdapter.next (s : StringPromptAdapter) :
    StringPromptAdapter × Option JObj × Option StreamError :=
  if s.sent then (s, none, some .eof)
  else ({ s with sent := true }, some (stringPromptRecord s.prompt), none)

/-- Constructor `NewStringPromptStream`. -/
def NewStringPromptStream (prompt : String) : StringPromptAdapter :=
  { prompt := prompt, sent := false }

/-- Adapter state after `n` calls to `Next`. -/
def stringPromptStateAfter (prompt : String) : Nat → StringPromptAdapter
  | 0 => NewStringPromptStream prompt
  | n + 1 => (stringPromptStateAfter prompt n).next.1

/-- Result pair `(map, err)` of the `(n+1)`-th call to `Next` on a fresh
`NewStringPromptStream prompt`. -/
def stringPromptCallAt (prompt : String) (n : Nat) :
    Option JObj × Option StreamError :=
  (stringPromptStateAfter prompt n).next.2

/-! ### Transport facade (`NewSubprocessCLITransport`, `Disconnect`)

`Options` is the transport package's option struct (`options.go` of
`internal/transport`); its `NewOptions` returns the zero value.  A
`MessageStream` is classified by Go type assertion, so the model keeps the
dynamic type as a constructor: `IsStringPrompt` is the assertion
`stream.(*stringPromptAdapter)`. -/

/-- Option struct of the transport package. -/
structure Options where
  Model : String
  SystemPrompt : String
  AppendSystemPrompt : String
  Cwd : String
  AllowedTools : List String
  DisallowedTools : List String
  MaxTurns : Option Int
  PermissionPromptToolName : String
  PermissionMode : String
  ContinueConversation : Bool
  Resume : String
  MCPServers : List (String × JVal)

/-- Constructor `NewOptions` of the transport package: `&Options{}`, all
fields at their zero values. -/
def NewOptions : Options :=
  { Model := "", SystemPrompt := "", AppendSystemPrompt := "", Cwd := "",
    AllowedTools := [], DisallowedTools := [], MaxTurns := none,
    PermissionPromptToolName := "", PermissionMode := "",
    ContinueConversation := false, Resume := "", MCPServers := [] }

/-- Dynamic type of a `MessageStream` interface value: a
`*stringPromptAdapter`, some other implementation (such as an empty or custom
stream), or the nil interface. -/
inductive MessageStream where
  | stringAdapter (s : StringPromptAdapter)
  | otherStream (id : Nat)
  | nilStream

/-- Type assertion `stream.(*stringPromptAdapter)` of `IsStringPrompt`. -/
def IsStringPrompt (stream : MessageStream) : Bool :=
  match stream with
  | .stringAdapter _ => true
  | _ => false

/-- Fields of `SubprocessCLITransport` relevant to construction and the
connection state machine.  The channel fields track presence (non-nil),
openness and how many times `close` ran on them; closing a Go channel twice
panics, so the close counters are the safety-relevant observation. -/
structure SubprocessCLITransport where
  prompt : MessageStream
  options : Options
  cliPath : String
  closeStdinAfterPrompt : Bool
  pendingControlResponses : List (String × JObj)
  requestCounter : Nat
  connected : Bool
  isStreaming : Bool
  sessionID : String
  cancelled : Bool
  stdinPipeOpen : Bool
  stdinChanPresent : Bool
  stdinChanCloseCount : Nat
  outChanPresent : Bool
  outChanCloseCount : Nat

/-- Constructor `NewSubprocessCLITransport`: a nil options pointer is
replaced by `NewOptions()`; streaming mode is enabled exactly when the prompt
is not a string prompt; the session id starts as `"default"` and the
pending-control-response table empty.  The channel fields are nil and the
counters zero until `Connect` runs. -/
def NewSubprocessCLITransport (prompt : MessageStream)
    (options : Option Options) : SubprocessCLITransport :=
  let opts := match options with
    | none => NewOptions
    | some o => o
  { prompt := prompt, options := opts, cliPath := "",
    closeStdinAfterPrompt := false, pendingControlResponses := [],
    requestCounter := 0, connected := false,
    isStreaming := !IsStringPrompt prompt, sessionID := "default",
    cancelled := false, stdinPipeOpen := false, stdinChanPresent := false,
    stdinChanCloseCount := 0, outChanPresent := false,
    outChanCloseCount := 0 }

/-- Model of `Disconnect`: when the transport is not connected it returns nil
at once and touches nothing; otherwise it clears `connected`, cancels the
context, closes the stdin channel when present and the stdin pipe when open,
waits out the process and the pump goroutines, and returns nil.  Note that
`Disconnect` itself never closes the output channel. -/
def Disconnect (t : SubprocessCLITransport) :
    SubprocessCLITransport × Option String :=
  if !t.connected then (t, none)
  else
    ({ t with
        connected := false
        cancelled := true
        stdinChanCloseCount :=
          if t.stdinChanPresent then t.stdinChanCloseCount + 1
          else t.stdinChanCloseCount
        stdinPipeOpen := if t.stdinPipeOpen then false else t.stdinPipeOpen },
      none)

/-- Model of the closing step of the goroutine started by `Connect` that
waits for process exit and pump completion: it closes the output channel only
when it is still non-nil, then clears the field. -/
def closeOutputChannel (t : SubprocessCLITransport) : SubprocessCLITransport :=
  if t.outChanPresent then
    { t with outChanPresent := false,
             outChanCloseCount := t.outChanCloseCount + 1 }
  else t

/-! ### Auxiliary definitions for the statements and witnesses -/

/-- Concatenation of a list of strings, used to describe the contents of the
JSON accumulator after a run of non-parsing fragments. -/
def concatStr : List String → String
  | [] => ""
  | s :: rest => s ++ concatStr rest

/-- Value of a list of decimal digit characters (most significant first),
used to invert `Nat.repr` when reasoning about request-identifier
collisions. -/
def decimalValue (cs : List Char) : Nat :=
  cs.foldl (fun n c => n * 10 + (c.toNat - 48)) 0

/-! ### Supporting lemmas -/

/-- Adapter state is `sent` from the second call on. -/
theorem stringPromptStateAfter_succ (prompt : String) (n : Nat) :
    stringPromptStateAfter prompt (n + 1) = ⟨prompt, true⟩ := by
  induction n with
  | zero => rfl
  | succ m ih =>
    show (stringPromptStateAfter prompt (m + 1)).next.1 = _
    rw [ih]
    rfl

/-- Disconnect is a no-op, returning nil, when the transport is not
connected. -/
theorem Disconnect_of_not_connected (t : SubprocessCLITransport)
    (h : t.connected = false) : Disconnect t = (t, none) := by
  simp [Disconnect, h]

/-- Disconnecting leaves the transport with `connected = false`. -/
theorem Disconnect_not_connected (t : SubprocessCLITransport) :
    (Disconnect t).1.connected = false := by
  by_cases h : t.connected
  · simp [Disconnect, h]
  · simp only [Bool.not_eq_true] at h
    rw [Disconnect_of_not_connected t h]
    exact h

/-! ### Claim theorems -/

/-- C3: when the child process exits with exit code zero, no `ProcessError`
is emitted on the output channel, however much stderr output was captured:
both `processStderr` and the stderr-pump completion step emit nothing for
exit code zero. -/
theorem c3_zero_exit_emits_no_process_error (lines : List String) :
    processStderr (some 0) lines = [] ∧ stderrDone (some 0) lines = [] := by
  have h : processStderr (some 0) lines = [] := by
    unfold processStderr
    split
    · rfl
    · simp
  refine ⟨h, ?_⟩
  unfold stderrDone
  split
  · exact h
  · rfl

/-- C2 (code bug): a non-zero exit code with no captured stderr lines emits
no `ProcessError` at all — the completion arm of `readStderr` runs
`processStderr` only when at least one line was captured, and `processStderr`
itself returns early on an empty line list — although the specification
requires exactly one `ProcessError` with empty stderr detail. -/
theorem c2_nonzero_exit_empty_stderr_emits_nothing :
    stderrDone (some 1) [] = [] ∧ processStderr (some 1) [] = [] :=
  ⟨rfl, rfl⟩

/-- C9: a `NewStringPromptStream prompt` yields
`{"type":"user","message":{"role":"user","content":prompt}}` with no error on
the first `Next` call, and `nil, io.EOF` on every subsequent call. -/
theorem c9_string_prompt_first_then_eof (prompt : String) (n : Nat)
    (hn : 1 ≤ n) :
    stringPromptCallAt prompt 0 = (some (stringPromptRecord prompt), none) ∧
    stringPromptCallAt prompt n = (none, some .eof) := by
  refine ⟨rfl, ?_⟩
  obtain ⟨m, rfl⟩ : ∃ m, n = m + 1 := ⟨n - 1, by omega⟩
  unfold stringPromptCallAt
  rw [stringPromptStateAfter_succ]
  rfl

/-- Witness for C9 at the prompt `"2+2?"` and the second call. -/
theorem c9_string_prompt_first_then_eof_witness :
    1 ≤ 1 ∧
    (stringPromptCallAt "2+2?" 0 = (some (stringPromptRecord "2+2?"), none) ∧
      stringPromptCallAt "2+2?" 1 = (none, some .eof)) :=
  ⟨by decide, c9_string_prompt_first_then_eof "2+2?" 1 (by decide)⟩

/-- C10: `NewSubprocessCLITransport` substitutes the default options for a
nil options pointer, and the new transport starts with session id
`"default"`, an empty pending-control-responses table, and streaming mode on
exactly when the prompt is not a `*stringPromptAdapter`. -/
theorem c10_constructor_defaults (prompt : MessageStream) :
    NewSubprocessCLITransport prompt none
      = NewSubprocessCLITransport prompt (some NewOptions) ∧
    (NewSubprocessCLITransport prompt none).options = NewOptions ∧
    (NewSubprocessCLITransport prompt none).sessionID = "default" ∧
    (NewSubprocessCLITransport prompt none).pendingControlResponses = [] ∧
    ((NewSubprocessCLITransport prompt none).isStreaming = true ↔
      ∀ s, prompt ≠ MessageStream.stringAdapter s) := by
  refine ⟨rfl, rfl, rfl, rfl, ?_⟩
  cases prompt with
  | stringAdapter s =>
    simp only [NewSubprocessCLITransport, IsStringPrompt]
    constructor
    · intro h
      exact absurd h (by simp)
    · intro h
      exact absurd rfl (h s)
  | otherStream id => simp [NewSubprocessCLITransport, IsStringPrompt]
  | nilStream => simp [NewSubprocessCLITransport, IsStringPrompt]

/-- C8: `Disconnect` is idempotent — on a transport that is not connected it
returns nil and changes nothing, a second `Disconnect` in sequence returns
nil and changes nothing further, and the close of the output channel is
guarded so it runs at most once. -/
theorem c8_disconnect_idempotent (t : SubprocessCLITransport) :
    (t.connected = false → Disconnect t = (t, none)) ∧
    (Disconnect t).2 = none ∧
    Disconnect (Disconnect t).1 = ((Disconnect t).1, none) ∧
    (closeOutputChannel (closeOutputChannel t)).outChanCloseCount
      ≤ t.outChanCloseCount + 1 := by
  refine ⟨?_, ?_, ?_, ?_⟩
  · exact Disconnect_of_not_connected t
  · by_cases h : t.connected
    · simp [Disconnect, h]
    · simp only [Bool.not_eq_true] at h
      rw [Disconnect_of_not_connected t h]
  · exact Disconnect_of_not_connected _ (Disconnect_not_connected t)
  · unfold closeOutputChannel
    by_cases h : t.outChanPresent
    · simp [h]
    · simp [h]

/-- Witness for C8 on a freshly constructed (hence disconnected) transport
whose output channel is present. -/
theorem c8_disconnect_idempotent_witness :
    (NewSubprocessCLITransport .nilStream none).connected = false ∧
    Disconnect (NewSubprocessCLITransport .nilStream none)
      = (NewSubprocessCLITransport .nilStream none, none) ∧
    (closeOutputChannel (closeOutputChannel
        { NewSubprocessCLITransport .nilStream none with
            outChanPresent := true })).outChanCloseCount
      ≤ ({ NewSubprocessCLITransport .nilStream none with
            outChanPresent := true } : SubprocessCLITransport).outChanCloseCount
        + 1 :=
  ⟨rfl, (c8_disconnect_idempotent _).1 rfl,
    (c8_disconnect_idempotent _).2.2.2⟩

/-- C4 (counterexample): a successfully parsed record whose `type` is
`"control_response"` but which carries no response object is neither stored
in the pending table nor forwarded on the output channel, although the claim
requires every record outside the store-and-consume case to be forwarded. -/
theorem c4_malformed_control_response_dropped :
    routeRecord ⟨"x", []⟩ [("type", .str "control_response")]
      = (⟨"", []⟩, []) ∧
    (∀ o, OutEvent.record o ∉
      (routeRecord ⟨"x", []⟩ [("type", .str "control_response")]).2) := by
  refine ⟨rfl, ?_⟩
  intro o
  simp [routeRecord, jlookup, isStringValue]

/-- C4 (amended): a parsed record whose `type` is the string
`"control_response"` is never forwarded, and its response is stored exactly
when it carries a response object with a string `request_id`; every parsed
record whose `type` is not that string is forwarded unchanged as a domain
record. -/
theorem c4_record_routing (st : ReaderState) (data response : JObj)
    (requestID : String) :
    (isStringValue (jlookup data "type") "control_response" = true →
      (routeRecord st data).2 = []) ∧
    (jlookup data "type" = some (.str "control_response") →
      jlookup data "response" = some (.obj response) →
      jlookup response "request_id" = some (.str requestID) →
      routeRecord st data =
        ({ jsonBuffer := "",
           pendingControlResponses :=
             tableInsert st.pendingControlResponses requestID response }, [])) ∧
    (isStringValue (jlookup data "type") "control_response" = false →
      routeRecord st data = ({ st with jsonBuffer := "" }, [.record data])) := by
  refine ⟨?_, ?_, ?_⟩
  · intro h
    unfold routeRecord
    rw [h]
    simp only [if_true]
    rcases jlookup data "response" with _ | v
    · rfl
    · cases v with
      | obj resp =>
        rcases h2 : jlookup resp "request_id" with _ | w
        · simp [h2]
        · cases w <;> simp [h2]
      | null => rfl
      | bool b => rfl
      | num n => rfl
      | str s => rfl
      | arr a => rfl
  · intro h1 h2 h3
    simp [routeRecord, h1, h2, h3, isStringValue]
  · intro h
    unfold routeRecord
    rw [h]
    rfl

/-- Witness for C4 exercising all three routing branches at concrete
records. -/
theorem c4_record_routing_witness :
    isStringValue (jlookup [("type", .str "control_response"),
        ("response", .str "odd")] "type") "control_response" = true ∧
    (routeRecord ⟨"", []⟩ [("type", .str "control_response"),
        ("response", .str "odd")]).2 = [] ∧
    jlookup [("type", .str "control_response"),
        ("response", .obj [("request_id", .str "req_1_7")])] "type"
      = some (.str "control_response") ∧
    routeRecord ⟨"", []⟩ [("type", .str "control_response"),
        ("response", .obj [("request_id", .str "req_1_7")])]
      = (⟨"", tableInsert [] "req_1_7" [("request_id", .str "req_1_7")]⟩, []) ∧
    isStringValue (jlookup [("type", .str "result")] "type")
        "control_response" = false ∧
    routeRecord ⟨"", []⟩ [("type", .str "result")]
      = (⟨"", []⟩, [.record [("type", .str "result")]]) :=
  ⟨rfl, (c4_record_routing ⟨"", []⟩ _ [] "").1 rfl,
    rfl, (c4_record_routing ⟨"", []⟩ _ [("request_id", .str "req_1_7")]
      "req_1_7").2.1 rfl rfl rfl,
    rfl, (c4_record_routing ⟨"", []⟩ _ [] "").2.2 rfl⟩

/-- C5 (counterexample): a `SendRequest` message that has a `type` key but no
`session_id` key is enqueued verbatim — the metadata session id is not
stamped onto it. -/
theorem c5_session_id_not_stamped :
    sendRequest true true [("session_id", .str "s1")]
        [[("type", .str "user")]]
      = .ok [[("type", .str "user")]] ∧
    jlookup [("type", .str "user")] "session_id" = none :=
  ⟨rfl, rfl⟩

/-- C5 (amended): in streaming mode while connected, `SendRequest` enqueues
the submitted records in submission order; a record that has no `type` key is
replaced by a user-turn wrapper that embeds the original record as
`message.content` and carries the metadata session id, and a record that has
a `type` key is enqueued with no field modified at all — even when it lacks a
`session_id`. -/
theorem c5_send_request_wrapping (metadata : JObj) (messages : List JObj)
    (sid : String)
    (hsid : jlookup metadata "session_id" = some (.str sid)) :
    sendRequest true true metadata messages
      = .ok (messages.map (wrapMessage sid)) ∧
    (∀ msg, (jlookup msg "type").isSome → wrapMessage sid msg = msg) ∧
    (∀ msg, (jlookup msg "type").isNone → wrapMessage sid msg =
      [("type", .str "user"),
       ("message", .obj [("role", .str "user"), ("content", .obj msg)]),
       ("parent_tool_use_id", .null),
       ("session_id", .str sid)]) := by
  refine ⟨?_, ?_, ?_⟩
  · unfold sendRequest sessionIdOfMetadata
    rw [hsid]
    rfl
  · intro msg h
    obtain ⟨v, hv⟩ := Option.isSome_iff_exists.mp h
    unfold wrapMessage
    rw [hv]
    rfl
  · intro msg h
    unfold wrapMessage
    rw [h]
    rfl

/-- Witness for C5 sending one typed and one untyped record with session id
`"s1"`. -/
theorem c5_send_request_wrapping_witness :
    jlookup [("session_id", .str "s1")] "session_id" = some (.str "s1") ∧
    sendRequest true true [("session_id", .str "s1")]
        [[("type", .str "user")], [("text", .str "hi")]]
      = .ok ([[("type", .str "user")], [("text", .str "hi")]].map
          (wrapMessage "s1")) :=
  ⟨rfl, (c5_send_request_wrapping [("session_id", .str "s1")]
    [[("type", .str "user")], [("text", .str "hi")]] "s1" rfl).1⟩

/-- C6 (counterexample): a matched control response whose `subtype` is
`"error"` but whose `error` field is missing is returned to the caller
without any error, although the claim requires every error-subtyped response
to fail the call. -/
theorem c6_error_subtype_without_message_succeeds :
    handleControlResponse [("subtype", .str "error")]
      = .ok [("subtype", .str "error")] ∧
    (∀ e, handleControlResponse [("subtype", .str "error")] ≠ .error e) := by
  refine ⟨rfl, ?_⟩
  intro e
  simp [handleControlResponse, jlookup, isStringValue]

/-- C6 (amended): a matched control response fails the control call with a
connection error carrying the embedded message exactly when its `subtype` is
the string `"error"` and its `error` field is a string; every other matched
response — including an error-subtyped one without a string `error` field —
is returned as is; and matching removes the pending-table entry. -/
theorem c6_control_response_resolution (response : JObj) (errMsg : String)
    (pending : List (String × JObj)) (requestID : String)
    (hfound : tableLookup pending requestID = some response) :
    (jlookup response "subtype" = some (.str "error") →
      jlookup response "error" = some (.str errMsg) →
      handleControlResponse response
        = .error ("Control request failed: " ++ errMsg)) ∧
    (jlookup response "subtype" = some (.str "error") →
      (∀ m, jlookup response "error" ≠ some (.str m)) →
      handleControlResponse response = .ok response) ∧
    (isStringValue (jlookup response "subtype") "error" = false →
      handleControlResponse response = .ok response) ∧
    pollControlResponse pending requestID
      = (tableErase pending requestID,
         some (handleControlResponse response)) := by
  refine ⟨?_, ?_, ?_, ?_⟩
  · intro h1 h2
    unfold handleControlResponse
    rw [h1, h2]
    rfl
  · intro h1 h2
    unfold handleControlResponse
    rw [h1]
    rcases he : jlookup response "error" with _ | v
    · simp [isStringValue, he]
    · cases v with
      | str s => exact absurd he (h2 s)
      | null => simp [isStringValue, he]
      | bool b => simp [isStringValue, he]
      | num n => simp [isStringValue, he]
      | arr a => simp [isStringValue, he]
      | obj o => simp [isStringValue, he]
  · intro h
    unfold handleControlResponse
    rw [h]
    rfl
  · unfold pollControlResponse
    rw [hfound]

/-- Witness for C6 at a pending table holding one error-subtyped response
with message `"boom"`. -/
theorem c6_control_response_resolution_witness :
    tableLookup [("req_1_7", [("subtype", .str "error"),
        ("error", .str "boom")])] "req_1_7"
      = some [("subtype", .str "error"), ("error", .str "boom")] ∧
    handleControlResponse [("subtype", .str "error"), ("error", .str "boom")]
      = .error ("Control request failed: " ++ "boom") ∧
    pollControlResponse [("req_1_7", [("subtype", .str "error"),
        ("error", .str "boom")])] "req_1_7"
      = (tableErase [("req_1_7", [("subtype", .str "error"),
          ("error", .str "boom")])] "req_1_7",
         some (handleControlResponse [("subtype", .str "error"),
           ("error", .str "boom")])) :=
  ⟨rfl,
    (c6_control_response_resolution _ "boom" [("req_1_7",
      [("subtype", .str "error"), ("error", .str "boom")])] "req_1_7"
      rfl).1 rfl rfl,
    (c6_control_response_resolution _ "boom" [("req_1_7",
      [("subtype", .str "error"), ("error", .str "boom")])] "req_1_7"
      rfl).2.2.2⟩

/-- Folding UTF-8 byte sizes from an arbitrary initial value shifts the
result by that value. -/
theorem foldl_utf8Size_shift (l : List Char) (n : Nat) :
    l.foldl (fun a c => a + c.utf8Size) n
      = n + l.foldl (fun a c => a + c.utf8Size) 0 := by
  induction l generalizing n with
  | nil => simp
  | cons c cs ih =>
    rw [List.foldl_cons, List.foldl_cons, ih (n + c.utf8Size),
      ih (0 + c.utf8Size)]
    omega

/-- Go byte length is additive over concatenation. -/
theorem goLen_append (a b : String) : goLen (a ++ b) = goLen a + goLen b := by
  unfold goLen
  have h : (a ++ b).data = a.data ++ b.data := rfl
  rw [h, List.foldl_append, foldl_utf8Size_shift]

/-- Go byte length of a repeated character. -/
theorem goLen_replicate (n : Nat) (c : Char) :
    goLen (String.mk (List.replicate n c)) = n * c.utf8Size := by
  induction n with
  | zero => simp [goLen]
  | succ m ih =>
    have h : goLen (String.mk (List.replicate (m + 1) c))
        = (0 + c.utf8Size) + goLen (String.mk (List.replicate m c)) := by
      unfold goLen
      rw [show (String.mk (List.replicate (m + 1) c)).data
          = c :: List.replicate m c from by rw [List.replicate_succ],
        List.foldl_cons]
      exact foldl_utf8Size_shift _ _
    rw [h, ih, Nat.succ_mul]
    omega

/-- Appending the empty string on the right is the identity. -/
theorem string_append_empty (s : String) : s ++ "" = s := by
  cases s with
  | mk data =>
    show String.mk (data ++ []) = String.mk data
    rw [List.append_nil]

/-- String concatenation is associative. -/
theorem string_append_assoc (a b c : String) :
    (a ++ b) ++ c = a ++ (b ++ c) := by
  cases a with
  | mk la =>
    cases b with
    | mk lb =>
      cases c with
      | mk lc =>
        show String.mk ((la ++ lb) ++ lc) = String.mk (la ++ (lb ++ lc))
        rw [List.append_assoc]

/-- Dropping while a predicate fails on every element is the identity. -/
theorem dropWhile_eq_self_of_not (p : Char → Bool) (l : List Char)
    (h : ∀ c ∈ l, p c = false) : l.dropWhile p = l := by
  cases l with
  | nil => rfl
  | cons a as =>
    rw [List.dropWhile_cons, h a (by simp)]
    rfl

/-- A string without whitespace characters is fixed by `trimSpace`. -/
theorem trimSpace_eq_self (s : String)
    (h : ∀ c ∈ s.data, c.isWhitespace = false) : trimSpace s = s := by
  unfold trimSpace
  rw [dropWhile_eq_self_of_not _ _ h,
    dropWhile_eq_self_of_not _ _
      (fun c hc => h c (List.mem_reverse.mp hc)),
    List.reverse_reverse]

/-- Splitting on a character that does not occur returns the whole list. -/
theorem splitOnChar_eq_single (sep : Char) (l : List Char) (h : sep ∉ l) :
    splitOnChar sep l = [l] := by
  induction l with
  | nil => rfl
  | cons x xs ih =>
    have hx : ¬(x = sep) := fun e => h (e ▸ List.mem_cons_self x xs)
    have hxs : sep ∉ xs := fun m => h (List.mem_cons_of_mem x m)
    unfold splitOnChar
    rw [ih hxs]
    simp [hx]

/-- A line without embedded newlines splits into itself. -/
theorem splitLines_eq_single (s : String) (h : '\n' ∉ s.data) :
    splitLines s = [s] := by
  unfold splitLines
  rw [splitOnChar_eq_single '\n' s.data h]
  rfl

/-- Processing a line that is nonempty and has no embedded newline is
processing it as a single fragment. -/
theorem processLine_eq_processFragment (parse : String → Option JObj)
    (st : ReaderState) (line : String) (h1 : line ≠ "")
    (h2 : splitLines line = [line]) :
    processLine parse st line = processFragment parse st line := by
  unfold processLine
  rw [if_neg h1, h2]
  show processFragments parse st [line] = _
  cases hp : processFragment parse st line with
  | mk st1 evs => simp [processFragments, hp]

/-- Unfolding of `runReader` on a cons cell. -/
theorem runReader_cons (parse : String → Option JObj) (st : ReaderState)
    (line : String) (rest : List String) :
    runReader parse st (line :: rest)
      = ((runReader parse (processLine parse st line).1 rest).1,
         (processLine parse st line).2
           ++ (runReader parse (processLine parse st line).1 rest).2) := by
  show (let (st1, evs1) := processLine parse st line
        let (st2, evs2) := runReader parse st1 rest
        (st2, evs1 ++ evs2)) = _
  cases hp : processLine parse st line with
  | mk st1 evs =>
    cases hr : runReader parse st1 rest with
    | mk st2 evs2 => simp [hp, hr]

/-- A run of the reader over nonempty newline-free fragments, none of whose
accumulations parses and each of which keeps the accumulator within the
bound, only extends the accumulator and emits nothing. -/
theorem runReader_accumulates (parse : String → Option JObj)
    (gs : List String) (st : ReaderState)
    (hfrag : ∀ g ∈ gs, trimSpace g = g ∧ g ≠ "" ∧ splitLines g = [g])
    (hstep : ∀ n, n < gs.length →
      goLen (st.jsonBuffer ++ concatStr (gs.take (n + 1))) ≤ maxBufferSize ∧
      parse (st.jsonBuffer ++ concatStr (gs.take (n + 1))) = none) :
    runReader parse st gs
      = ({ st with jsonBuffer := st.jsonBuffer ++ concatStr gs }, []) := by
  induction gs generalizing st with
  | nil =>
    show (st, []) = _
    cases st with
    | mk buf pend => simp [concatStr, string_append_empty]
  | cons g rest ih =>
    obtain ⟨htrim, hne, hsplit⟩ := hfrag g (List.mem_cons_self g rest)
    have h0 := hstep 0 (by simp)
    have hconcat1 : concatStr ((g :: rest).take 1) = g := by
      show g ++ concatStr [] = g
      exact string_append_empty g
    rw [hconcat1] at h0
    have hpf : processFragment parse st g
        = ({ st with jsonBuffer := st.jsonBuffer ++ g }, []) := by
      unfold processFragment
      rw [htrim, if_neg hne,
        if_neg (by omega : ¬goLen (st.jsonBuffer ++ g) > maxBufferSize), h0.2]
    have hfr : ∀ g' ∈ rest,
        trimSpace g' = g' ∧ g' ≠ "" ∧ splitLines g' = [g'] :=
      fun g' hm => hfrag g' (List.mem_cons_of_mem g hm)
    have hst : ∀ n, n < rest.length →
        goLen ((st.jsonBuffer ++ g) ++ concatStr (rest.take (n + 1)))
          ≤ maxBufferSize ∧
        parse ((st.jsonBuffer ++ g) ++ concatStr (rest.take (n + 1)))
          = none := by
      intro n hn
      have h := hstep (n + 1) (by simpa using Nat.succ_lt_succ hn)
      have ht : concatStr ((g :: rest).take (n + 1 + 1))
          = g ++ concatStr (rest.take (n + 1)) := rfl
      rw [ht, ← string_append_assoc] at h
      exact h
    show (let (st1, evs1) := processLine parse st g
          let (st2, evs2) := runReader parse st1 rest
          (st2, evs1 ++ evs2)) = _
    rw [processLine_eq_processFragment parse st g hne hsplit, hpf]
    show (let (st2, evs2) :=
            runReader parse { st with jsonBuffer := st.jsonBuffer ++ g } rest
          (st2, [] ++ evs2)) = _
    rw [ih { st with jsonBuffer := st.jsonBuffer ++ g } hfr hst]
    show ({ st with jsonBuffer := (st.jsonBuffer ++ g) ++ concatStr rest },
        ([] ++ [] : List OutEvent)) = _
    simp [concatStr, string_append_assoc]

/-- Splitting a run of the reader at a list concatenation. -/
theorem runReader_append (parse : String → Option JObj) (st : ReaderState)
    (l1 l2 : List String) :
    runReader parse st (l1 ++ l2)
      = ((runReader parse (runReader parse st l1).1 l2).1,
         (runReader parse st l1).2
           ++ (runReader parse (runReader parse st l1).1 l2).2) := by
  induction l1 generalizing st with
  | nil =>
    show runReader parse st l2 = _
    simp [runReader]
  | cons line rest ih =>
    rw [List.cons_append, runReader_cons parse st line (rest ++ l2),
      runReader_cons parse st line rest, ih]
    simp [List.append_assoc]

/-- C1: whenever a fragment pushes the JSON accumulator past `maxBufferSize`
before a successful parse, the accumulator is reset and exactly one overflow
decode error is emitted, and the reader keeps running: feeding more than the
maximum buffer size of bytes whose accumulations never parse, followed by one
small valid JSON line, yields exactly one overflow error followed by exactly
one forwarded domain record. -/
theorem c1_overflow_recovery :
    (∀ (parse : String → Option JObj) (st : ReaderState) (fragment : String),
      trimSpace fragment ≠ "" →
      goLen (st.jsonBuffer ++ trimSpace fragment) > maxBufferSize →
      processFragment parse st fragment
        = ({ st with jsonBuffer := "" }, [.decodeError overflowMessage])) ∧
    (∀ (parse : String → Option JObj) (pending : List (String × JObj))
        (gs : List String) (glast validLine : String) (rcd : JObj),
      (∀ g ∈ gs, trimSpace g = g ∧ g ≠ "" ∧ splitLines g = [g]) →
      (∀ n, n < gs.length →
        goLen (concatStr (gs.take (n + 1))) ≤ maxBufferSize ∧
        parse (concatStr (gs.take (n + 1))) = none) →
      trimSpace glast = glast → glast ≠ "" → splitLines glast = [glast] →
      goLen (concatStr gs ++ glast) > maxBufferSize →
      trimSpace validLine = validLine → validLine ≠ "" →
      splitLines validLine = [validLine] →
      goLen validLine ≤ maxBufferSize →
      parse validLine = some rcd →
      isStringValue (jlookup rcd "type") "control_response" = false →
      runReader parse ⟨"", pending⟩ (gs ++ [glast, validLine])
        = (⟨"", pending⟩,
           [.decodeError overflowMessage, .record rcd])) := by
  constructor
  · intro parse st fragment h1 h2
    unfold processFragment
    rw [if_neg h1, if_pos h2]
  · intro parse pending gs glast validLine rcd hfrag hacc htg hng hsg hover
      htv hnv hsv hlenv hparsev htype
    have hgarb := runReader_accumulates parse gs ⟨"", pending⟩ hfrag
      (by intro n hn; exact hacc n hn)
    have h1 : processFragment parse ⟨concatStr gs, pending⟩ glast
        = (⟨"", pending⟩, [.decodeError overflowMessage]) := by
      unfold processFragment
      rw [htg, if_neg hng, if_pos hover]
    have h2 : processFragment parse ⟨"", pending⟩ validLine
        = (⟨"", pending⟩, [.record rcd]) := by
      unfold processFragment
      rw [htv, if_neg hnv,
        show ("" : String) ++ validLine = validLine from rfl,
        if_neg (by omega : ¬goLen validLine > maxBufferSize)]
      simp only [hparsev]
      simp [routeRecord, htype]
    rw [runReader_append parse ⟨"", pending⟩ gs [glast, validLine], hgarb]
    show ((runReader parse ⟨concatStr gs, pending⟩ [glast, validLine]).1,
        [] ++ (runReader parse ⟨concatStr gs, pending⟩ [glast, validLine]).2)
      = _
    rw [runReader_cons parse ⟨concatStr gs, pending⟩ glast [validLine],
      processLine_eq_processFragment parse _ glast hng hsg, h1]
    show ((runReader parse ⟨"", pending⟩ [validLine]).1,
        [] ++ ([OutEvent.decodeError overflowMessage]
          ++ (runReader parse ⟨"", pending⟩ [validLine]).2)) = _
    rw [runReader_cons parse ⟨"", pending⟩ validLine [],
      processLine_eq_processFragment parse _ validLine hnv hsv, h2]
    simp [runReader]

/-- Witness for C1: one fragment of `maxBufferSize + 1` bytes of `'a'`
overflows the accumulator, and the following two-line feed (that fragment,
then a small line the parse function accepts as a `result` record) produces
exactly one overflow error followed by exactly one forwarded record. -/
theorem c1_overflow_recovery_witness :
    goLen (String.mk (List.replicate maxBufferSize 'a') ++ trimSpace "b")
      > maxBufferSize ∧
    processFragment (fun _ => none)
        ⟨String.mk (List.replicate maxBufferSize 'a'), []⟩ "b"
      = (⟨"", []⟩, [.decodeError overflowMessage]) ∧
    goLen (concatStr [] ++ String.mk (List.replicate (maxBufferSize + 1) 'a'))
      > maxBufferSize ∧
    runReader
        (fun s => if s = "ok" then some [("type", JVal.str "result")]
          else none)
        ⟨"", []⟩
        [String.mk (List.replicate (maxBufferSize + 1) 'a'), "ok"]
      = (⟨"", []⟩,
         [.decodeError overflowMessage,
          .record [("type", JVal.str "result")]]) := by
  have hsz : ('a').utf8Size = 1 := rfl
  have hb1 : goLen (String.mk (List.replicate maxBufferSize 'a')
      ++ trimSpace "b") > maxBufferSize := by
    show goLen (String.mk (List.replicate maxBufferSize 'a') ++ "b")
      > maxBufferSize
    rw [goLen_append, goLen_replicate, hsz,
      show goLen "b" = 1 from rfl]
    omega
  have hb2 : goLen (concatStr []
      ++ String.mk (List.replicate (maxBufferSize + 1) 'a'))
      > maxBufferSize := by
    show goLen (String.mk (List.replicate (maxBufferSize + 1) 'a'))
      > maxBufferSize
    rw [goLen_replicate, hsz]
    omega
  refine ⟨hb1, c1_overflow_recovery.1 _ _ _ (by decide) hb1, hb2, ?_⟩
  have hbig : ∀ c ∈ List.replicate (maxBufferSize + 1) 'a', c = 'a' :=
    fun c hc => List.eq_of_mem_replicate hc
  exact c1_overflow_recovery.2 _ []
    [] (String.mk (List.replicate (maxBufferSize + 1) 'a')) "ok"
    [("type", JVal.str "result")]
    (by intro g hg; simp at hg)
    (by intro n hn; simp at hn)
    (trimSpace_eq_self _ (fun c hc => by rw [hbig c hc]; rfl))
    (by
      intro h
      have hd := congrArg String.data h
      rw [List.replicate_succ] at hd
      exact absurd hd (by simp))
    (splitLines_eq_single _ (fun hm => absurd (hbig _ hm) (by decide)))
    hb2
    (by decide) (by decide) (by decide) (by decide) rfl rfl

/-- Character code of a decimal digit produced by `Nat.digitChar`. -/
theorem digitChar_toNat (k : Nat) (h : k < 10) :
    (Nat.digitChar k).toNat = 48 + k := by
  interval_cases k <;> rfl

/-- Decimal digits are never an underscore. -/
theorem digitChar_ne_underscore (k : Nat) (h : k < 10) :
    Nat.digitChar k ≠ '_' := by
  interval_cases k <;> decide

/-- Every character produced by `Nat.toDigitsCore` in base ten is either
carried over from the accumulator or a digit character. -/
theorem toDigitsCore_mem (fuel : Nat) :
    ∀ (n : Nat) (ds : List Char) (c : Char),
    c ∈ Nat.toDigitsCore 10 fuel n ds →
    c ∈ ds ∨ ∃ k, k < 10 ∧ c = Nat.digitChar k := by
  induction fuel with
  | zero => intro n ds c hc; exact Or.inl hc
  | succ f ih =>
    intro n ds c hc
    unfold Nat.toDigitsCore at hc
    by_cases h : n / 10 = 0
    · rw [if_pos h] at hc
      rcases List.mem_cons.mp hc with h1 | h2
      · exact Or.inr ⟨n % 10, Nat.mod_lt _ (by decide), h1⟩
      · exact Or.inl h2
    · rw [if_neg h] at hc
      rcases ih _ _ _ hc with h1 | h2
      · rcases List.mem_cons.mp h1 with ha | hb
        · exact Or.inr ⟨n % 10, Nat.mod_lt _ (by decide), ha⟩
        · exact Or.inl hb
      · exact Or.inr h2

/-- The accumulator of `Nat.toDigitsCore` is simply appended. -/
theorem toDigitsCore_append (fuel : Nat) :
    ∀ (n : Nat) (ds : List Char),
    Nat.toDigitsCore 10 fuel n ds = Nat.toDigitsCore 10 fuel n [] ++ ds := by
  induction fuel with
  | zero => intro n ds; rfl
  | succ f ih =>
    intro n ds
    unfold Nat.toDigitsCore
    by_cases h : n / 10 = 0
    · rw [if_pos h, if_pos h]
      rfl
    · rw [if_neg h, if_neg h, ih (n / 10) (Nat.digitChar (n % 10) :: ds),
        ih (n / 10) [Nat.digitChar (n % 10)], List.append_assoc]
      rfl

/-- Appending one digit multiplies the decimal value by ten and adds it. -/
theorem decimalValue_append_digit (l : List Char) (c : Char) :
    decimalValue (l ++ [c]) = decimalValue l * 10 + (c.toNat - 48) := by
  unfold decimalValue
  rw [List.foldl_append]
  rfl

/-- The decimal value of the base-ten digits of `n` is `n` again. -/
theorem decimalValue_toDigitsCore (fuel : Nat) :
    ∀ n : Nat, n < fuel →
    decimalValue (Nat.toDigitsCore 10 fuel n []) = n := by
  induction fuel with
  | zero => intro n h; omega
  | succ f ih =>
    intro n h
    unfold Nat.toDigitsCore
    by_cases hd : n / 10 = 0
    · rw [if_pos hd]
      show 0 * 10 + ((Nat.digitChar (n % 10)).toNat - 48) = n
      rw [digitChar_toNat (n % 10) (Nat.mod_lt _ (by decide))]
      omega
    · rw [if_neg hd, toDigitsCore_append f (n / 10) [Nat.digitChar (n % 10)],
        decimalValue_append_digit, ih (n / 10) (by omega),
        digitChar_toNat (n % 10) (Nat.mod_lt _ (by decide))]
      omega

/-- Decimal printing of naturals is injective. -/
theorem natRepr_inj (m n : Nat) (h : Nat.repr m = Nat.repr n) : m = n := by
  have hd : Nat.toDigitsCore 10 (m + 1) m [] = Nat.toDigitsCore 10 (n + 1) n []
      := congrArg String.data h
  have h1 := decimalValue_toDigitsCore (m + 1) m (by omega)
  have h2 := decimalValue_toDigitsCore (n + 1) n (by omega)
  rw [hd, h2] at h1
  exact h1.symm

/-- Decimal printing of naturals never produces an underscore. -/
theorem natRepr_no_underscore (n : Nat) : '_' ∉ (Nat.repr n).data := by
  intro hm
  rcases toDigitsCore_mem (n + 1) n [] '_' hm with h | ⟨k, hk, he⟩
  · simp at h
  · exact absurd he.symm (digitChar_ne_underscore k hk)

/-- Cutting two concatenations at an underscore that occurs in neither left
part identifies both parts. -/
theorem append_underscore_inj (l1 : List Char) :
    ∀ (l2 r1 r2 : List Char), '_' ∉ l1 → '_' ∉ l2 →
    l1 ++ '_' :: r1 = l2 ++ '_' :: r2 → l1 = l2 ∧ r1 = r2 := by
  induction l1 with
  | nil =>
    intro l2 r1 r2 h1 h2 he
    cases l2 with
    | nil => simpa using he
    | cons b bs =>
      simp only [List.nil_append, List.cons_append, List.cons.injEq] at he
      exact absurd (he.1 ▸ List.mem_cons_self b bs) h2
  | cons a as ih =>
    intro l2 r1 r2 h1 h2 he
    cases l2 with
    | nil =>
      simp only [List.nil_append, List.cons_append, List.cons.injEq] at he
      exact absurd (he.1 ▸ List.mem_cons_self a as) h1
    | cons b bs =>
      simp only [List.cons_append, List.cons.injEq] at he
      obtain ⟨hab, ht⟩ := he
      have hr := ih bs r1 r2 (fun m => h1 (List.mem_cons_of_mem a m))
        (fun m => h2 (List.mem_cons_of_mem b m)) ht
      exact ⟨by rw [hab, hr.1], hr.2⟩

/-- Normal form of the request-identifier character data. -/
theorem requestIdString_data (a : Nat) (b : Int) :
    (requestIdString a b).data
      = 'r' :: 'e' :: 'q' :: '_'
          :: ((Nat.repr a).data ++ '_' :: (Int.repr b).data) := by
  show ((['r', 'e', 'q', '_'] ++ (Nat.repr a).data) ++ ['_'])
        ++ (Int.repr b).data = _
  rw [List.append_assoc, List.append_assoc]
  rfl

/-- Equal request-identifier strings come from equal counter values. -/
theorem requestIdString_counter_inj (c1 c2 : Nat) (t1 t2 : Int)
    (h : requestIdString c1 t1 = requestIdString c2 t2) : c1 = c2 := by
  have hd := congrArg String.data h
  rw [requestIdString_data, requestIdString_data] at hd
  simp only [List.cons.injEq, true_and] at hd
  have hsplit := append_underscore_inj (Nat.repr c1).data (Nat.repr c2).data
    (Int.repr t1).data (Int.repr t2).data
    (natRepr_no_underscore c1) (natRepr_no_underscore c2) hd
  have hrepr : Nat.repr c1 = Nat.repr c2 := congrArg String.mk hsplit.1
  exact natRepr_inj c1 c2 hrepr

/-- Closed form of the wrapped request counter. -/
theorem requestCounterAfter_eq (k : Nat) :
    requestCounterAfter k = k % UINT64_MOD := by
  induction k with
  | zero => rfl
  | succ m ih =>
    show nextRequestCounter (requestCounterAfter m) = _
    rw [ih]
    unfold nextRequestCounter
    conv_rhs => rw [Nat.add_mod]
    rw [Nat.mod_eq_of_lt (show 1 < UINT64_MOD by decide)]

/-- C7: the identifiers assigned to distinct control requests of one
transport instance are distinct, whatever timestamps the two calls observe,
as long as the instance has issued fewer than `2^64` requests (the wrap-around
bound of the Go `uint64` counter). -/
theorem c7_request_ids_unique (i j : Nat) (ti tj : Int) (hij : i < j)
    (hj : j < UINT64_MOD) : requestIdAt i ti ≠ requestIdAt j tj := by
  intro h
  have hc := requestIdString_counter_inj _ _ _ _ h
  rw [requestCounterAfter_eq, requestCounterAfter_eq] at hc
  have hiM : i + 1 < UINT64_MOD := by omega
  rw [Nat.mod_eq_of_lt hiM] at hc
  by_cases hjM : j + 1 < UINT64_MOD
  · rw [Nat.mod_eq_of_lt hjM] at hc
    omega
  · rw [show j + 1 = UINT64_MOD by omega, Nat.mod_self] at hc
    omega

/-- Witness for C7: the first two requests of an instance get distinct
identifiers even when both observe the same timestamp. -/
theorem c7_request_ids_unique_witness :
    0 < 1 ∧ 1 < UINT64_MOD ∧ requestIdAt 0 0 ≠ requestIdAt 1 0 :=
  ⟨by decide, by decide,
    c7_request_ids_unique 0 1 0 0 (by decide) (by decide)⟩
